import Mathlib

/-!
Shallow embedding of the ledger-normalization engine of `src/app.py`
(a Streamlit app that turns bookkeeping exports into cash-voucher documents),
together with proofs settling the frozen claims C1..C10.

Modelling conventions:
* Python strings are embedded as `List Char` (`Str`); the file-reading and
  spreadsheet-rendering collaborators (declared out of scope by the spec) are
  modelled at their interfaces only.
* Monetary values (pandas floats) are embedded as `ℚ`.
* Loops whose termination measure is not structural are written with an
  explicit fuel argument that is always initialised large enough (commented at
  each site); this keeps every definition kernel-reducible.
-/

abbrev Str := List Char

/-- ASCII whitespace recognised by Python's `str.strip` / `\s`
(the inputs exercised here contain no exotic unicode spaces). -/
def pyIsSpace (c : Char) : Bool :=
  c == ' ' || c == '\t' || c == '\n' || c == '\r' || c == '\x0b' || c == '\x0c'

/-- ASCII decimal digit, Python regex `\d` on the data in scope. -/
def pyIsDigit (c : Char) : Bool := '0' ≤ c && c ≤ '9'

/-- CJK unified ideograph range used by the source, `[一-鿿]`. -/
def isCJK (c : Char) : Bool := 0x4e00 ≤ c.toNat && c.toNat ≤ 0x9fff

/-- `str.strip()` (both-ends whitespace strip). -/
def pyStrip (s : Str) : Str :=
  ((s.dropWhile pyIsSpace).reverse.dropWhile pyIsSpace).reverse

/-- ASCII lowering; `str.lower()` on the header keywords in the source, which
are ASCII or CJK (CJK has no case). -/
def asciiLower (c : Char) : Char :=
  if 'A' ≤ c && c ≤ 'Z' then Char.ofNat (c.toNat + 32) else c

def lowerStr (s : Str) : Str := s.map asciiLower

/-- First occurrence of `pat` in `s`: `some (before, after)` when found. -/
def splitFirst (pat : Str) : Str → Option (Str × Str)
  | [] => if pat = [] then some ([], []) else none
  | c :: rest =>
      if pat.isPrefixOf (c :: rest) then some ([], (c :: rest).drop pat.length)
      else match splitFirst pat rest with
        | some (a, b) => some (c :: a, b)
        | none => none

/-- Python `pat in s` (substring containment). -/
def isSubstr (pat s : Str) : Bool := (splitFirst pat s).isSome

/-- Python `s.split(sep)` for a one-character separator (keeps empty pieces). -/
def splitOnChar (sep : Char) : Str → List Str
  | [] => [[]]
  | c :: rest =>
      let r := splitOnChar sep rest
      if c = sep then [] :: r
      else match r with
        | [] => [[c]]
        | h :: t => (c :: h) :: t

/-- Decimal digits of `n`, most significant first (`str(n)` digit by digit).
Fuel `n+1` always suffices since the argument shrinks by division by 10. -/
def natDigitsAux : Nat → Nat → List Nat
  | 0, _ => []
  | f+1, n => if n < 10 then [n] else natDigitsAux f (n / 10) ++ [n % 10]

def natDigits (n : Nat) : List Nat := natDigitsAux (n+1) n

def digitChar (d : Nat) : Char := Char.ofNat (48 + d)

/-- `str(n)` for a natural number. -/
def natToChars (n : Nat) : Str := (natDigits n).map digitChar

/-- Association-list lookup keyed by strings (Python `dict` read). -/
def alookup {α : Type} : List (Str × α) → Str → Option α
  | [], _ => none
  | (k, v) :: rest, key => if k = key then some v else alookup rest key

/-- Python `dict` assignment: overwrite in place, else append (insertion order
of first assignment is preserved, later assignments replace the value). -/
def upsert {α : Type} : List (Str × α) → Str → α → List (Str × α)
  | [], k, v => [(k, v)]
  | (k', v') :: rest, k, v =>
      if k' = k then (k', v) :: rest else (k', v') :: upsert rest k v

/-- `str(x)` for a cell that may hold the pandas missing marker `pd.NA`
(`str(pd.NA) = "<NA>"`). -/
def pyStrOf (c : Option Str) : Str :=
  match c with
  | none => "<NA>".data
  | some s => s

/- ===================== Ledger data model ===================== -/

inductive Side
  | debit
  | credit
deriving DecidableEq

/-- One ledger leg as stored in a group's `entries` list
(app.py lines 320-325): the text fields hold `pd.NA` (`none`) when the cell
was absent, amounts are numbers after `fillna(0)`. -/
structure Entry where
  account : Option Str
  summary : Option Str
  debit : ℚ
  credit : ℚ
deriving DecidableEq

/-- A voucher unit as built by `get_grouped_entries` (app.py lines 312-325). -/
structure VoucherUnit where
  date : Str
  voucher : Str
  summary : Option Str
  entries : List Entry
deriving DecidableEq

/-- `'1001' in account or '库存现金' in account` (app.py line 816 et al.). -/
def isCashAccount (a : Str) : Bool :=
  isSubstr "1001".data a || isSubstr "库存现金".data a

/-- `has_cash` flag of the per-group scan in `process_accounting_entries`
(app.py lines 807-816): set as soon as any leg's account matches the cash
signature. -/
def has_cash (entries : List Entry) : Bool :=
  entries.any (fun e => isCashAccount (pyStrOf e.account))

/-- The cash-leg scan of `process_accounting_entries` (app.py lines 811-825):
walk the legs in order; at a cash-account leg, break with the debit side if its
debit is positive, else break with the credit side if its credit is positive,
else keep scanning. Returns the chosen leg and side (`cash_entry`,
`cash_direction`); `none` when the loop never breaks. -/
def classify_cash_leg : List Entry → Option (Entry × Side)
  | [] => none
  | e :: rest =>
      if isCashAccount (pyStrOf e.account) then
        if 0 < e.debit then some (e, Side.debit)
        else if 0 < e.credit then some (e, Side.credit)
        else classify_cash_leg rest
      else classify_cash_leg rest

/- ===================== Counterparty extraction ===================== -/

/-- `re.sub(r'\d+\s*', '', s)`: scan left to right; at a digit, drop the
maximal digit run and the whitespace run following it, otherwise keep the
character (app.py lines 365, 375, 428, 438).  Fuel: the recursive argument is
always strictly shorter, so `s.length` fuel suffices. -/
def stripDigitRunsF : Nat → Str → Str
  | 0, _ => []
  | _, [] => []
  | f+1, c :: rest =>
      if pyIsDigit c then
        stripDigitRunsF f ((rest.dropWhile pyIsDigit).dropWhile pyIsSpace)
      else c :: stripDigitRunsF f rest

def stripDigitRuns (s : Str) : Str := stripDigitRunsF s.length s

/-- Rules 1 and 2 of the extraction chain (app.py lines 360-367 and 370-377,
and their copies at 423-430, 433-440): split on the separator, take the last
segment, `strip()`, delete digit runs, accept when non-empty and at most 10
characters. -/
def sepRule (sep : Char) (account_str : Str) : Option Str :=
  if isSubstr [sep] account_str then
    let parts := splitOnChar sep account_str
    if 1 < parts.length then
      let name_part := stripDigitRuns (pyStrip (parts.getLastD []))
      if name_part ≠ [] ∧ name_part.length ≤ 10 then some name_part else none
    else none
  else none

/-- `re.match(r'^\d+$', part)`: the token is one or more digits and nothing
else. -/
def isPureDigits (p : Str) : Bool := !p.isEmpty && p.all pyIsDigit

/-- Inner loop of rule 3: first token that is not purely numeric and contains
a CJK character, truncated to 10 characters (app.py lines 382-387). -/
def firstCJKToken : List Str → Option Str
  | [] => none
  | p :: rest =>
      if !isPureDigits p && p.any isCJK then some (p.take 10)
      else firstCJKToken rest

/-- Rule 3, present only in `extract_counterparty_for_cash_debit`
(app.py lines 380-387). -/
def spaceRule (account_str : Str) : Option Str :=
  if isSubstr [' '] account_str then firstCJKToken (splitOnChar ' ' account_str)
  else none

def summary_keywords : List Str :=
  ["向", "从", "支付", "付", "收", "收到", "借", "还款", "付款", "给", "交", "还"].map String.data

def summary_end_words : List Str :=
  ["借款", "款项", "费用", "款", "现金", "金额", "租金", "运费", "包装费", "电费", "社保",
   "费", "利息"].map String.data

/-- The sequential trailing-noise strip of app.py lines 466-468: each end word
is tested once, in order, against the current remainder. -/
def strip_end_words (cp : Str) : Str :=
  summary_end_words.foldl
    (fun acc w =>
      if w.isSuffixOf acc then pyStrip (acc.take (acc.length - w.length)) else acc)
    cp

/-- Keyword loop of `extract_counterparty_from_summary`
(app.py lines 457-471): first keyword occurring in the summary whose stripped
remainder is non-empty wins, truncated to 15 characters. -/
def summary_keyword_scan : List Str → Str → Option Str
  | [], _ => none
  | kw :: rest, s =>
      match splitFirst kw s with
      | some (_, after) =>
          let cp := strip_end_words (pyStrip after)
          if cp ≠ [] then some (cp.take 15) else summary_keyword_scan rest s
      | none => summary_keyword_scan rest s

/-- `extract_counterparty_from_summary` (app.py lines 447-477). -/
def extract_counterparty_from_summary (summary : Option Str) : Str :=
  match summary with
  | none => "未知".data
  | some s =>
      if s = [] then "未知".data
      else
        match summary_keyword_scan summary_keywords s with
        | some r => r
        | none => if s.length ≤ 15 then s else s.take 12 ++ "...".data

/-- `cash_debit_entry` search (app.py lines 335-341). -/
def find_cash_debit : List Entry → Option Entry
  | [] => none
  | e :: rest =>
      if isCashAccount (pyStrOf e.account) ∧ 0 < e.debit then some e
      else find_cash_debit rest

/-- `cash_credit_entry` search (app.py lines 398-404). -/
def find_cash_credit : List Entry → Option Entry
  | [] => none
  | e :: rest =>
      if isCashAccount (pyStrOf e.account) ∧ 0 < e.credit then some e
      else find_cash_credit rest

/-- The opposing-leg scan of `extract_counterparty_for_cash_debit`
(app.py lines 347-387): skip cash legs; at a leg with positive credit try the
dash, slash and whitespace rules in order; if none fires, keep scanning. -/
def opposing_scan_debit : List Entry → Option Str
  | [] => none
  | e :: rest =>
      if isCashAccount (pyStrOf e.account) then opposing_scan_debit rest
      else if 0 < e.credit then
        match sepRule '-' (pyStrOf e.account) with
        | some r => some r
        | none =>
            match sepRule '/' (pyStrOf e.account) with
            | some r => some r
            | none =>
                match spaceRule (pyStrOf e.account) with
                | some r => some r
                | none => opposing_scan_debit rest
      else opposing_scan_debit rest

/-- The opposing-leg scan of `extract_counterparty_for_cash_credit`
(app.py lines 410-440): same shape, but only the dash and slash rules exist
in this copy of the code. -/
def opposing_scan_credit : List Entry → Option Str
  | [] => none
  | e :: rest =>
      if isCashAccount (pyStrOf e.account) then opposing_scan_credit rest
      else if 0 < e.debit then
        match sepRule '-' (pyStrOf e.account) with
        | some r => some r
        | none =>
            match sepRule '/' (pyStrOf e.account) with
            | some r => some r
            | none => opposing_scan_credit rest
      else opposing_scan_credit rest

/-- `extract_counterparty_for_cash_debit` (app.py lines 331-391). -/
def extract_counterparty_for_cash_debit (group_entries : List Entry) : Str :=
  match find_cash_debit group_entries with
  | none => "未知交款人".data
  | some cash_debit_entry =>
      match opposing_scan_debit group_entries with
      | some r => r
      | none => extract_counterparty_from_summary cash_debit_entry.summary

/-- `extract_counterparty_for_cash_credit` (app.py lines 394-444). -/
def extract_counterparty_for_cash_credit (group_entries : List Entry) : Str :=
  match find_cash_credit group_entries with
  | none => "未知领款人".data
  | some cash_credit_entry =>
      match opposing_scan_credit group_entries with
      | some r => r
      | none => extract_counterparty_from_summary cash_credit_entry.summary

/- Parametric form of the extractor, used to state what the two per-side
copies of the code actually share.  Modelled from the spec's description
(§4.6) of a single fixed priority chain applied to the opposing leg, with the
rule list made explicit as a parameter. -/

/-- First rule of `rules` that yields a result on `a`. -/
def ruleChain (rules : List (Str → Option Str)) (a : Str) : Option Str :=
  match rules with
  | [] => none
  | r :: rest =>
      match r a with
      | some x => some x
      | none => ruleChain rest a

/-- Scan the non-cash legs whose `opp` amount is positive, trying `rules` on
each in order. -/
def generic_opposing_scan (rules : List (Str → Option Str)) (opp : Entry → ℚ) :
    List Entry → Option Str
  | [] => none
  | e :: rest =>
      if isCashAccount (pyStrOf e.account) then generic_opposing_scan rules opp rest
      else if 0 < opp e then
        match ruleChain rules (pyStrOf e.account) with
        | some r => some r
        | none => generic_opposing_scan rules opp rest
      else generic_opposing_scan rules opp rest

/-- The rule list each side actually uses: dash, slash, and — on the debit
side only — the whitespace rule. -/
def side_rules : Side → List (Str → Option Str)
  | Side.debit => [sepRule '-', sepRule '/', spaceRule]
  | Side.credit => [sepRule '-', sepRule '/']

/-- Parametric extractor subsuming both per-side copies. -/
def generic_extract (side : Side) (group_entries : List Entry) : Str :=
  let cashE := match side with
    | Side.debit => find_cash_debit group_entries
    | Side.credit => find_cash_credit group_entries
  match cashE with
  | none =>
      (match side with
       | Side.debit => "未知交款人"
       | Side.credit => "未知领款人").data
  | some e =>
      match generic_opposing_scan (side_rules side)
          (fun x => match side with | Side.debit => x.credit | Side.credit => x.debit)
          group_entries with
      | some r => r
      | none => extract_counterparty_from_summary e.summary

/- ===================== Business-date resolution ===================== -/

/-- A calendar date as carried by `datetime` (year, month, day). -/
structure Date where
  y : Nat
  m : Nat
  d : Nat
deriving DecidableEq

def isLeapYear (y : Nat) : Bool := (y % 4 == 0 && y % 100 != 0) || y % 400 == 0

/-- `calendar.monthrange(year, month)[1]` for months 1..12 (the default arm is
never reached on validated dates). -/
def monthLength (y m : Nat) : Nat :=
  if m = 2 then (if isLeapYear y then 29 else 28)
  else if m = 4 ∨ m = 6 ∨ m = 9 ∨ m = 11 then 30
  else 31

/-- Proleptic-Gregorian civil day count (days since 0000-03-01), the standard
`days_from_civil` algorithm specialised to the year range 1..9999 that
`datetime` supports, so plain `Nat` arithmetic suffices.  `datetime` day
arithmetic (`+ timedelta(days=1)`) is addition of 1 on this count. -/
def daysFromCivil (dt : Date) : Nat :=
  let y := if dt.m ≤ 2 then dt.y - 1 else dt.y
  let era := y / 400
  let yoe := y - era * 400
  let mp := (dt.m + 9) % 12
  let doy := (153 * mp + 2) / 5 + dt.d - 1
  let doe := yoe * 365 + yoe / 4 - yoe / 100 + doy
  era * 146097 + doe

/-- `datetime.weekday()` (Monday = 0 .. Sunday = 6) of a civil day count;
the offset 2 is calibrated below against known weekdays. -/
def wd (n : Nat) : Nat := (n + 2) % 7

-- Calibration: 1970-01-01 was a Thursday, 2024-01-01 a Monday,
-- 2024-06-01 a Saturday.
example : wd (daysFromCivil ⟨1970, 1, 1⟩) = 3 := by decide
example : wd (daysFromCivil ⟨2024, 1, 1⟩) = 0 := by decide
example : wd (daysFromCivil ⟨2024, 6, 1⟩) = 5 := by decide

/-- The weekend loop of `get_business_date` (app.py lines 528-529):
`while business_date.weekday() >= 5: business_date += timedelta(days=1)`.
Fuel 7 always suffices: at most two of any three consecutive days are
weekend days. -/
def skipWeekendF : Nat → Nat → Nat
  | 0, n => n
  | f+1, n => if 5 ≤ wd n then skipWeekendF f (n+1) else n

/- ---- `datetime.strptime` for the five fixed formats (app.py line 487).
CPython compiles `%Y` to exactly four digits and `%m` / `%d` to the
alternations `1[0-2]|0[1-9]|[1-9]` and `3[01]|[12]\d|0[1-9]|[1-9]`: the
two-character alternatives are preferred, with backtracking, and parsing
fails unless the whole string is consumed; `datetime` construction then
validates the day against the month length and the year against MINYEAR. ---- -/

def digitVal (c : Char) : Nat := c.toNat - 48

/-- `%Y`: exactly four digits. -/
def parseYear4 : Str → Option (Nat × Str)
  | a :: b :: c :: d :: rest =>
      if pyIsDigit a && pyIsDigit b && pyIsDigit c && pyIsDigit d then
        some (digitVal a * 1000 + digitVal b * 100 + digitVal c * 10 + digitVal d, rest)
      else none
  | _ => none

/-- Two-character alternative of `%m` / `%d`: two digits whose value lies in
`1..hi` (the union of the regex's two-character branches). -/
def twoDigitCands (hi : Nat) : Str → List (Nat × Str)
  | a :: b :: rest =>
      if pyIsDigit a && pyIsDigit b then
        let v := digitVal a * 10 + digitVal b
        if 1 ≤ v ∧ v ≤ hi then [(v, rest)] else []
      else []
  | _ => []

/-- One-character alternative `[1-9]`. -/
def oneDigitCands : Str → List (Nat × Str)
  | a :: rest => if pyIsDigit a && a ≠ '0' then [(digitVal a, rest)] else []
  | [] => []

/-- Candidates for `%m` (`hi = 12`) / `%d` (`hi = 31`) in regex preference
order: two characters first, then one. -/
def fieldCands (hi : Nat) (s : Str) : List (Nat × Str) :=
  twoDigitCands hi s ++ oneDigitCands s

def expectChar (c : Char) : Str → Option Str
  | x :: rest => if x = c then some rest else none
  | [] => none

def firstSome {α : Type} : List (Option α) → Option α
  | [] => none
  | some x :: _ => some x
  | none :: rest => firstSome rest

/-- `%Y s₁ %m s₂ %d` with an optional trailing literal (for `%Y年%m月%d日`),
requiring full consumption. -/
def parseSepFormat (sep1 sep2 : Char) (trail : Option Char) (s : Str) :
    Option (Nat × Nat × Nat) :=
  match parseYear4 s with
  | none => none
  | some (y, r1) =>
      match expectChar sep1 r1 with
      | none => none
      | some r2 =>
          firstSome ((fieldCands 12 r2).map (fun mc =>
            match expectChar sep2 mc.2 with
            | none => none
            | some r4 =>
                firstSome ((fieldCands 31 r4).map (fun dc =>
                  match trail with
                  | none => if dc.2 = [] then some (y, mc.1, dc.1) else none
                  | some t =>
                      match expectChar t dc.2 with
                      | none => none
                      | some r6 => if r6 = [] then some (y, mc.1, dc.1) else none))))

/-- `%Y%m%d`, requiring full consumption. -/
def parseCompact (s : Str) : Option (Nat × Nat × Nat) :=
  match parseYear4 s with
  | none => none
  | some (y, r1) =>
      firstSome ((fieldCands 12 r1).map (fun mc =>
        firstSome ((fieldCands 31 mc.2).map (fun dc =>
          if dc.2 = [] then some (y, mc.1, dc.1) else none))))

/-- The `datetime` range validation performed after the regex match:
year ≥ MINYEAR = 1, month 1..12, day within the month. -/
def mkValidDate (t : Nat × Nat × Nat) : Option Date :=
  if 1 ≤ t.1 ∧ 1 ≤ t.2.1 ∧ t.2.1 ≤ 12 ∧ 1 ≤ t.2.2 ∧ t.2.2 ≤ monthLength t.1 t.2.1 then
    some ⟨t.1, t.2.1, t.2.2⟩
  else none

/-- The format loop of app.py lines 490-497: first format whose structural
match and validation both succeed. -/
def parse_date_formats : List (Option (Nat × Nat × Nat)) → Option Date
  | [] => none
  | o :: rest =>
      match o.bind mkValidDate with
      | some d => some d
      | none => parse_date_formats rest

/-- `strptime(base_date_str.strip()[:10], fmt)` tried over the five formats
`['%Y-%m-%d', '%Y/%m/%d', '%Y年%m月%d日', '%Y.%m.%d', '%Y%m%d']`. -/
def parseDate10 (s : Str) : Option Date :=
  let t := (pyStrip s).take 10
  parse_date_formats
    [parseSepFormat '-' '-' none t,
     parseSepFormat '/' '/' none t,
     parseSepFormat '年' '月' (some '日') t,
     parseSepFormat '.' '.' none t,
     parseCompact t]

/-- The `base_date` selection of app.py lines 484-505: parse when the input
is a non-empty string with non-blank strip, else the current date `now`
(`datetime.now()`); unparsable input also falls back to `now`. -/
def base_of (base_date_str : Option Str) (now : Date) : Date :=
  match base_date_str with
  | some s => if s ≠ [] ∧ pyStrip s ≠ [] then (parseDate10 s).getD now else now
  | none => now

/-- `get_business_date` (app.py lines 480-536), returning the civil day count
of the resolved date (in bijection with the returned `datetime`).  The
`try/except ValueError` around `datetime(year, month, day)` clamps the day to
the month's last day exactly when it would overflow, i.e. it computes
`min day (monthLength y m)`; the outer catch-all (line 533) is unreachable in
this total model. -/
def get_business_date (base_date_str : Option Str) (is_receipt : Bool) (now : Date) : Nat :=
  let base := base_of base_date_str now
  let day := if is_receipt then 1 else 15
  let day2 := min day (monthLength base.y base.m)
  skipWeekendF 7 (daysFromCivil ⟨base.y, base.m, day2⟩)

/- ===================== Chinese capital-amount conversion ===================== -/

def chinese_digits : List Str :=
  ["零", "壹", "贰", "叁", "肆", "伍", "陆", "柒", "捌", "玖"].map String.data

def chinese_units : List Str := ["", "拾", "佰", "仟"].map String.data

def chinese_big_units : List Str := ["", "万", "亿"].map String.data

/-- Python 3 `round` to an integer: round half to even. -/
def pyRound (q : ℚ) : ℤ :=
  let f := q.floor
  let r := q - (f : ℚ)
  if r < 1/2 then f
  else if 1/2 < r then f + 1
  else if 2 ∣ f then f else f + 1

/-- The grouping loop of app.py lines 567-571: peel four digits at a time off
the least-significant end, then reverse, giving most-significant-first groups
(the leading group may be short).  Fuel `length + 1` suffices: each step
shortens the list by four. -/
def chunk4F : Nat → List Nat → List (List Nat)
  | 0, _ => []
  | _, [] => []
  | f+1, l => chunk4F f (l.take (l.length - 4)) ++ [l.drop (l.length - 4)]

def chunk4 (l : List Nat) : List (List Nat) := chunk4F (l.length + 1) l

/-- The per-group digit loop of app.py lines 578-596; `j` is the running
index, the `Bool` is `zero_in_group`. -/
def renderDigits (group_len : Nat) : Nat → Bool → List Nat → Str
  | _, _, [] => []
  | j, zero_in_group, d :: rest =>
      let unit_pos := group_len - j - 1
      if d ≠ 0 then
        (if zero_in_group then "零".data else []) ++
        (if ¬(d = 1 ∧ unit_pos = 1 ∧ j = 0) then chinese_digits.getD d [] else []) ++
        (if 0 < unit_pos then chinese_units.getD unit_pos [] else []) ++
        renderDigits group_len (j+1) false rest
      else renderDigits group_len (j+1) true rest

def renderGroup (g : List Nat) : Str := renderDigits g.length 0 false g

/-- The group loop of app.py lines 573-602; `none` models the `IndexError`
raised by `chinese_big_units[len(groups)-i-1]` when more than three groups
render (caught by the surrounding `try`, which then returns the error
string). -/
def renderGroupsF : Nat → Nat → List (List Nat) → Str → Option Str
  | _, _, [], acc => some acc
  | i, total, g :: rest, acc =>
      let gc := renderGroup g
      if gc ≠ [] ∨ (i = total - 1 ∧ acc = []) then
        if i < total - 1 then
          if total - i - 1 ≤ 2 then
            renderGroupsF (i+1) total rest
              ((acc ++ gc) ++ chinese_big_units.getD (total - i - 1) [])
          else none
        else renderGroupsF (i+1) total rest (acc ++ gc)
      else renderGroupsF (i+1) total rest acc

/-- Python `s.replace(old, new)`: replace all non-overlapping occurrences left
to right.  Fuel `s.length` suffices: every replacement consumes at least one
character of the remainder. -/
def replaceAllF (pat rep : Str) : Nat → Str → Str
  | 0, s => s
  | f+1, s =>
      match splitFirst pat s with
      | none => s
      | some (pre, post) => pre ++ rep ++ replaceAllF pat rep f post

def replaceAll (pat rep s : Str) : Str := replaceAllF pat rep s.length s

/-- `while "零零" in result: result = result.replace("零零", "零")`
(app.py lines 626-627).  Each pass shortens the string, so `length` fuel
suffices. -/
def squeezeZerosF : Nat → Str → Str
  | 0, s => s
  | f+1, s =>
      if isSubstr "零零".data s then squeezeZerosF f (replaceAll "零零".data "零".data s)
      else s

/-- The post-processing of app.py lines 626-638: collapse doubled zeros, drop
a leading zero before 元, collapse 零万 / 零亿, strip trailing zeros. -/
def cleanup_amount (result : Str) : Str :=
  let r1 := squeezeZerosF result.length result
  let r2 := if ("零元".data).isPrefixOf r1 then r1.drop 1 else r1
  let r3 := replaceAll "零万".data "万".data r2
  let r4 := replaceAll "零亿".data "亿".data r3
  if ("零".data).isSuffixOf r4 then (r4.reverse.dropWhile (· == '零')).reverse else r4

def intToChars (i : ℤ) : Str :=
  if i < 0 then '-' :: natToChars i.natAbs else natToChars i.natAbs

/-- Rendering of `num` inside the error message; the exact numeral form of
the Python float is abstracted (the claims only depend on its character set,
which contains no monetary unit word). -/
def ratToChars (q : ℚ) : Str :=
  intToChars q.num ++ (if q.den = 1 then [] else '/' :: natToChars q.den)

/-- `f"（金额转换错误: {num}）"`, the catch-all result of app.py line 644. -/
def err_string (num : ℚ) : Str :=
  "（金额转换错误: ".data ++ ratToChars num ++ "）".data

/-- The main body of `convert_to_chinese_amount` for `num ≥ 0`
(app.py lines 551-640).  `decimal_part = 100` (a fraction rounding up to one
whole) and a fourth digit group both raise `IndexError` in the source, caught
at line 642 to yield the error string. -/
def convert_nonneg (num : ℚ) : Str :=
  if num = 0 then "零元整".data
  else
    let integer_part : ℕ := num.floor.toNat
    let decimal_part : ℤ := pyRound ((num - (integer_part : ℚ)) * 100)
    let ci : Option Str :=
      if integer_part = 0 then some ("零".data)
      else
        let groups := chunk4 (natDigits integer_part)
        renderGroupsF 0 groups.length groups []
    match ci with
    | none => err_string num
    | some ci1 =>
        if 100 ≤ decimal_part then err_string num
        else
          let chinese_integer := if ci1 = [] then "零".data else ci1
          let chinese_decimal : Str :=
            if 0 < decimal_part then
              let dp := decimal_part.toNat
              let jiao := dp / 10
              let fen := dp % 10
              (if 0 < jiao then chinese_digits.getD jiao [] ++ "角".data else []) ++
              (if 0 < fen then chinese_digits.getD fen [] ++ "分".data else [])
            else []
          let result :=
            if chinese_decimal ≠ [] then chinese_integer ++ "元".data ++ chinese_decimal
            else chinese_integer ++ "元整".data
          cleanup_amount result

/-- `convert_to_chinese_amount` (app.py lines 539-644): negative amounts
recurse on the absolute value behind the prefix 负; the recursive call lands
in the non-negative branch, i.e. in `convert_nonneg`. -/
def convert_to_chinese_amount (num : ℚ) : Str :=
  if num < 0 then "负".data ++ convert_nonneg (-num) else convert_nonneg num

-- Spot check (further checks follow once casts are discharged by lemmas).
example : convert_to_chinese_amount 0 = "零元整".data := by decide

/- ===================== Column reconciliation and parsing ===================== -/

def default_names : List Str :=
  ["日期", "凭证字号", "摘要", "科目", "借方金额", "贷方金额"].map String.data

def containsAny (c : Str) (kws : List Str) : Bool := kws.any (fun k => isSubstr k c)

/-- The keyword `elif` chain of app.py lines 180-198 on `str(col).lower()`. -/
def matchHeader (col : Str) : Option Str :=
  let c := lowerStr col
  if containsAny c (["日期", "date"].map String.data) then some "日期".data
  else if containsAny c (["凭证", "voucher", "字号", "凭证号"].map String.data) then
    some "凭证字号".data
  else if containsAny c (["摘要", "summary", "remark", "内容"].map String.data) then
    some "摘要".data
  else if containsAny c (["科目", "account", "subject", "科目名称", "科目代码"].map String.data) then
    some "科目".data
  else if containsAny c (["借方", "debit", "借方金额"].map String.data) then some "借方金额".data
  else if containsAny c (["贷方", "credit", "贷方金额"].map String.data) then some "贷方金额".data
  else none

/-- `column_mapping` for the fewer-than-six-columns branch
(app.py lines 178-204): a keyword match wins; an unmatched column at index
`i < 6` gets `default_names[i]` — the column's own position, with no check
whether that slot is already taken. -/
def columnMapping (headers : List Str) : List (Nat × Str) :=
  headers.enum.filterMap (fun p =>
    match matchHeader p.2 with
    | some n => some (p.1, n)
    | none => if p.1 < 6 then some (p.1, default_names.getD p.1 []) else none)

/-- Column assignment of `parse_accounting_entries` (app.py lines 169-204):
six or more columns are taken positionally, otherwise by keyword matching. -/
def reconcileMapping (headers : List Str) : List (Nat × Str) :=
  if 6 ≤ headers.length then default_names.enum else columnMapping headers

/-- `new_data[new_name] = df.iloc[:, i]` per row (app.py lines 207-212): a
later column mapped to the same name overwrites the earlier one in the dict. -/
def buildRowCells (mapping : List (Nat × Str)) (cells : List (Option Str)) :
    List (Str × Option Str) :=
  mapping.foldl
    (fun acc p => if p.1 < cells.length then upsert acc p.2 (cells.getD p.1 none) else acc)
    []

/-- pandas `Series.ffill` for one named column over the row list (`prev` is
the last non-absent value seen). -/
def ffillCol (name : Str) (prev : Option Str) :
    List (List (Str × Option Str)) → List (List (Str × Option Str))
  | [] => []
  | r :: rest =>
      match (alookup r name).getD none with
      | some s => r :: ffillCol name (some s) rest
      | none =>
          match prev with
          | some p => upsert r name (some p) :: ffillCol name (some p) rest
          | none => r :: ffillCol name none rest

/-- `fill_merged_cells` (app.py lines 270-289): forward-fill 日期 and
凭证字号 independently, when those columns exist. -/
def fill_merged_cells (mapping : List (Nat × Str)) (rows : List (List (Str × Option Str))) :
    List (List (Str × Option Str)) :=
  let rows1 :=
    if mapping.any (fun p => p.2 = "日期".data) then ffillCol "日期".data none rows else rows
  if mapping.any (fun p => p.2 = "凭证字号".data) then ffillCol "凭证字号".data none rows1
  else rows1

/-- The sentinel strings normalised to `pd.NA` (app.py line 220). -/
def sentinels : List Str := ["nan", "NaN", "None", "null", "", "NaT"].map String.data

/-- Cell cleaning of app.py lines 218-220: stringify (`NaN` becomes `"nan"`,
itself a sentinel), strip, send sentinels to `pd.NA`. -/
def cleanCell (c : Option Str) : Option Str :=
  match c with
  | none => none
  | some s => let t := pyStrip s; if t ∈ sentinels then none else some t

def cleanRow (r : List (Str × Option Str)) : List (Str × Option Str) :=
  r.map (fun p => (p.1, cleanCell p.2))

def digitsToNat (ds : Str) : Nat := ds.foldl (fun a c => a * 10 + digitVal c) 0

/-- `pd.to_numeric(..., errors='coerce')` on the already-stripped cell text,
restricted to the plain decimal grammar of ledger exports:
optional sign, integer digits, optional fractional digits. -/
def parseDecimal (s : Str) : Option ℚ :=
  let signed : Bool × Str :=
    match s with
    | '-' :: r => (true, r)
    | '+' :: r => (false, r)
    | r => (false, r)
  let ip := signed.2.takeWhile pyIsDigit
  let rest := signed.2.drop ip.length
  let val : Option ℚ :=
    match rest with
    | [] => if ip = [] then none else some (digitsToNat ip : ℚ)
    | '.' :: fr =>
        if fr.all pyIsDigit ∧ (ip ≠ [] ∨ fr ≠ []) then
          some ((digitsToNat ip : ℚ) + (digitsToNat fr : ℚ) / ((10 : ℚ) ^ fr.length))
        else none
    | _ => none
  val.map (fun v => if signed.1 then -v else v)

def removeCommas (s : Str) : Str := s.filter (fun c => c ≠ ',')

/-- One amount cell after `str.replace(',','')`, `to_numeric(errors='coerce')`
and `fillna(0)` (app.py lines 223-232): absent or unparsable becomes 0. -/
def amountVal (r : List (Str × Option Str)) (name : Str) : ℚ :=
  match alookup r name with
  | some (some s) => (parseDecimal (removeCommas s)).getD 0
  | _ => 0

/-- A normalised row of the final DataFrame: the cleaned text cells keyed by
mapped column name, and the two amount columns (absent from the mapping →
`none`, so `row.get(name, 0)` yields 0 downstream). -/
structure GRow where
  cells : List (Str × Option Str)
  debit : Option ℚ
  credit : Option ℚ
deriving DecidableEq

/-- `parse_accounting_entries` after the reading engines (app.py lines
160-254), as a function of the decoded table (`none` = the reader raised, the
surrounding `try` then returns `None`).  Produces the rows paired with their
original pandas index (kept by the `!= 0` filter, read later by `iterrows`).
The unguarded `df['科目']` at line 244 raises `KeyError` when no column maps
to 科目, which the catch-all turns into `None` as well. -/
def parse_pipeline (read : Option (List Str × List (List (Option Str)))) :
    Option (List (Nat × GRow)) :=
  match read with
  | none => none
  | some t =>
      let mapping := reconcileMapping t.1
      if mapping.any (fun p => p.2 = "科目".data) then
        let rows0 := t.2.map (buildRowCells mapping)
        let rows1 := fill_merged_cells mapping rows0
        let rows2 := rows1.map cleanRow
        let hasD := mapping.any (fun p => p.2 = "借方金额".data)
        let hasC := mapping.any (fun p => p.2 = "贷方金额".data)
        let rows3 := rows2.enum.map (fun p =>
          (p.1, GRow.mk p.2
            (if hasD then some (amountVal p.2 "借方金额".data) else none)
            (if hasC then some (amountVal p.2 "贷方金额".data) else none)))
        let rows4 :=
          if hasD ∧ hasC then
            rows3.filter (fun p => p.2.debit.getD 0 ≠ 0 ∨ p.2.credit.getD 0 ≠ 0)
          else rows3
        some rows4
      else none

/- ===================== Grouping ===================== -/

/-- `date_val` of app.py lines 301-306: `row.get('日期', '')` (absent column
gives `''`), then `pd.isna` sends `pd.NA` to `''`. -/
def dateVal (r : GRow) : Str :=
  match alookup r.cells "日期".data with
  | none => []
  | some none => []
  | some (some s) => s

/-- `voucher_val` of app.py lines 302-308: an absent column gives the *string*
`''` (kept as is — `pd.isna('')` is false); a `pd.NA` cell is replaced by the
synthesised `f"未命名_{idx}"` built from the row's original index. -/
def voucherVal (idx : Nat) (r : GRow) : Str :=
  match alookup r.cells "凭证字号".data with
  | none => []
  | some none => "未命名_".data ++ natToChars idx
  | some (some s) => s

/-- `row.get(name, '')` for the fields copied verbatim into groups/entries
(摘要, 科目): an absent column gives `''`, a `pd.NA` cell stays `pd.NA`. -/
def textVal (r : GRow) (name : Str) : Option Str :=
  match alookup r.cells name with
  | none => some []
  | some v => v

def mkEntry (r : GRow) : Entry :=
  { account := textVal r "科目".data
    summary := textVal r "摘要".data
    debit := r.debit.getD 0
    credit := r.credit.getD 0 }

/-- `key = f"{date_val}_{voucher_val}"` (app.py line 310). -/
def group_key (idx : Nat) (r : GRow) : Str :=
  dateVal r ++ "_".data ++ voucherVal idx r

/-- Add one entry under `key`: append to the existing group, else append a new
group at the end (Python dicts preserve insertion order). -/
def addToGroups : List (Str × VoucherUnit) → Str → VoucherUnit → Entry →
    List (Str × VoucherUnit)
  | [], key, fresh, e => [(key, { fresh with entries := [e] })]
  | (k, g) :: rest, key, fresh, e =>
      if k = key then (k, { g with entries := g.entries ++ [e] }) :: rest
      else (k, g) :: addToGroups rest key fresh e

/-- One iteration of the grouping loop (app.py lines 300-325). -/
def group_step (acc : List (Str × VoucherUnit)) (p : Nat × GRow) : List (Str × VoucherUnit) :=
  addToGroups acc (group_key p.1 p.2)
    { date := dateVal p.2
      voucher := voucherVal p.1 p.2
      summary := textVal p.2 "摘要".data
      entries := [] }
    (mkEntry p.2)

/-- `get_grouped_entries` (app.py lines 292-328) over the indexed rows. -/
def get_grouped_entries (rows : List (Nat × GRow)) : List (Str × VoucherUnit) :=
  rows.foldl group_step []

/- ===================== Per-group processing ===================== -/

/-- The engine's output record for one voucher unit (the fields the renderer
consumes; spreadsheet styling and file output are the excluded collaborator). -/
structure VoucherRecord where
  date : Str
  voucher : Str
  summary : Option Str
  account : Option Str
  amount : ℚ
  side : Side
  counterparty : Str
deriving DecidableEq

/-- The body of the per-group loop of `process_accounting_entries`
(app.py lines 800-897): classify the cash leg; a unit where the scan never
broke (`not has_cash or not cash_entry`) is skipped with `continue`; otherwise
build the record (amount and summary from the cash leg, counterparty through
the side's extractor, as wired inside `generate_receipt` /
`generate_payment_voucher`). -/
def process_group (g : VoucherUnit) : Option VoucherRecord :=
  match classify_cash_leg g.entries with
  | none => none
  | some (cash_entry, dir) =>
      some
        { date := g.date
          voucher := g.voucher
          summary := cash_entry.summary
          account := cash_entry.account
          amount := match dir with
            | Side.debit => cash_entry.debit
            | Side.credit => cash_entry.credit
          side := dir
          counterparty := match dir with
            | Side.debit => extract_counterparty_for_cash_debit g.entries
            | Side.credit => extract_counterparty_for_cash_credit g.entries }

/-- The error class the spec's §7 taxonomy names for an empty source table.
The implementation never constructs it: this type documents the spec-side
vocabulary so that "raises `SchemaError`" is statable against the code. -/
inductive SchemaError
  | emptyTable
deriving DecidableEq

/-- The counting loop of app.py lines 795-897 (template rendering, modelled
as always succeeding, is the excluded collaborator): receipts for debit-side
cash, payment vouchers for credit-side cash, in group order. -/
def runGroups (gs : List (Str × VoucherUnit)) : Nat × Nat × List VoucherRecord :=
  gs.foldl
    (fun acc p =>
      match process_group p.2 with
      | none => acc
      | some vr =>
          match vr.side with
          | Side.debit => (acc.1 + 1, acc.2.1, acc.2.2 ++ [vr])
          | Side.credit => (acc.1, acc.2.1 + 1, acc.2.2 ++ [vr]))
    (0, 0, [])

/-- `process_accounting_entries` (app.py lines 777-923): a failed parse or an
empty table returns the empty result `(0, 0, [])` (lines 785-787); no
exception escapes — the `Except` layer records that the `SchemaError` channel
is never used. -/
def process_accounting_entries (read : Option (List Str × List (List (Option Str)))) :
    Except SchemaError (Nat × Nat × List VoucherRecord) :=
  match parse_pipeline read with
  | none => Except.ok (0, 0, [])
  | some rows =>
      if rows.length = 0 then Except.ok (0, 0, [])
      else Except.ok (runGroups (get_grouped_entries rows))

/- ===================== Helper lemmas ===================== -/

lemma alookup_upsert {α : Type} (l : List (Str × α)) (k : Str) (v : α) (k' : Str) :
    alookup (upsert l k v) k' = if k = k' then some v else alookup l k' := by
  induction l with
  | nil => by_cases h : k = k' <;> simp [upsert, alookup, h]
  | cons p rest ih =>
      obtain ⟨pk, pv⟩ := p
      by_cases h1 : pk = k
      · subst h1
        by_cases h2 : pk = k' <;> simp [upsert, alookup, h2]
      · by_cases h2 : k = k'
        · subst h2
          simp [upsert, alookup, h1, ih]
        · simp [upsert, alookup, h1, ih, h2]

/- ===================== Claim C1 ===================== -/

/-- C1 counterexample: in a unit whose first cash candidate (account matching
1001/库存现金) has `credit > 0` and whose second cash candidate has
`debit > 0`, `classify_cash_leg` stops at the first candidate and classifies
the unit as a credit-side (payment) voucher — the later debit-side candidate
does *not* win, contradicting the claimed two-pass debit priority. -/
theorem claim1_counterexample :
    classify_cash_leg
        [⟨some "1001库存现金".data, some [], 0, 100⟩,
         ⟨some "1001".data, some [], 100, 0⟩] =
      some (⟨some "1001库存现金".data, some [], 0, 100⟩, Side.credit) ∧
    isCashAccount (pyStrOf (some "1001".data)) = true ∧
    (0 : ℚ) < 100 ∧ Side.credit ≠ Side.debit := by
  decide

/-- C1 amended: the classifier scans legs in order and stops at the *first*
cash candidate with a positive amount on either side, taking the debit side
when that candidate's debit is positive and the credit side otherwise;
candidates with no positive amount are passed over.  There is no second pass
giving debit-side candidates priority over earlier credit-side ones. -/
theorem claim1_amended (entries : List Entry) :
    classify_cash_leg entries =
      (entries.find? (fun e => isCashAccount (pyStrOf e.account) &&
          (decide (0 < e.debit) || decide (0 < e.credit)))).map
        (fun e => (e, if 0 < e.debit then Side.debit else Side.credit)) := by
  induction entries with
  | nil => rfl
  | cons e rest ih =>
      by_cases hc : isCashAccount (pyStrOf e.account)
      · by_cases hd : 0 < e.debit
        · simp [classify_cash_leg, List.find?, hc, hd]
        · by_cases hcr : 0 < e.credit
          · simp [classify_cash_leg, List.find?, hc, hd, hcr]
          · simp [classify_cash_leg, List.find?, hc, hd, hcr, ih]
      · simp [classify_cash_leg, List.find?, hc, ih]

/- ===================== Claim C2 ===================== -/

/-- The leg list filed under key `k` (empty when no such unit exists). -/
def entriesFor (gs : List (Str × VoucherUnit)) (k : Str) : List Entry :=
  match alookup gs k with
  | some g => g.entries
  | none => []

lemma entriesFor_addToGroups (acc : List (Str × VoucherUnit)) (key : Str)
    (fresh : VoucherUnit) (e : Entry) (k : Str) :
    entriesFor (addToGroups acc key fresh e) k =
      entriesFor acc k ++ (if key = k then [e] else []) := by
  induction acc with
  | nil => by_cases h : key = k <;> simp [addToGroups, entriesFor, alookup, h]
  | cons p rest ih =>
      obtain ⟨pk, g⟩ := p
      by_cases h1 : pk = key
      · subst h1
        by_cases h2 : pk = k <;> simp [addToGroups, entriesFor, alookup, h2]
      · by_cases h2 : pk = k
        · subst h2
          have hk : ¬ key = pk := fun h => h1 h.symm
          simp [addToGroups, entriesFor, alookup, h1, hk]
        · simp only [addToGroups, if_neg h1, entriesFor, alookup, if_neg h2]
          exact ih

lemma grouped_foldl (rows : List (Nat × GRow)) (acc : List (Str × VoucherUnit)) (k : Str) :
    entriesFor (rows.foldl group_step acc) k =
      entriesFor acc k ++
        ((rows.filter (fun p => decide (group_key p.1 p.2 = k))).map (fun p => mkEntry p.2)) := by
  induction rows generalizing acc with
  | nil => simp
  | cons p rows ih =>
      simp only [List.foldl_cons, List.filter_cons]
      rw [ih]
      by_cases h : group_key p.1 p.2 = k
      · simp [group_step, entriesFor_addToGroups, h]
      · simp [group_step, entriesFor_addToGroups, h]

/-- C2 counterexample: the grouping key is the plain concatenation
`f"{date}_{voucher}"`, so the two rows with *distinct* `(date, voucher_id)`
pairs `("2024_1", "x")` and `("2024", "1_x")` collide on the key
`"2024_1_x"` and land in one `VoucherUnit`, contradicting the claim that
distinct pairs never share a unit. -/
theorem claim2_counterexample :
    let r1 : GRow :=
      ⟨[("日期".data, some "2024_1".data), ("凭证字号".data, some "x".data)], some 1, some 0⟩
    let r2 : GRow :=
      ⟨[("日期".data, some "2024".data), ("凭证字号".data, some "1_x".data)], some 0, some 1⟩
    (dateVal r1, voucherVal 0 r1) ≠ (dateVal r2, voucherVal 1 r2) ∧
    (get_grouped_entries [(0, r1), (1, r2)]).length = 1 ∧
    entriesFor (get_grouped_entries [(0, r1), (1, r2)]) "2024_1_x".data =
      [mkEntry r1, mkEntry r2] := by
  decide

/-- C2 amended: grouping partitions the surviving rows by the *concatenated
string key* `date ++ "_" ++ voucher` (with `未命名_<original index>`
synthesised for an absent voucher id): the unit keyed by `k` holds exactly
the rows whose key is `k`, in their original relative order.  Rows with equal
`(date, voucher_id)` pairs therefore share a unit in order, but distinct
pairs also merge whenever their concatenations coincide. -/
theorem claim2_amended (rows : List (Nat × GRow)) (k : Str) :
    entriesFor (get_grouped_entries rows) k =
      ((rows.filter (fun p => decide (group_key p.1 p.2 = k))).map (fun p => mkEntry p.2)) := by
  have h := grouped_foldl rows [] k
  simpa [get_grouped_entries, entriesFor, alookup] using h

/- ===================== Claim C3 ===================== -/

/-- C3 counterexample: on a source table with the canonical six columns and
*zero rows*, the pipeline does not raise at all — it returns the ordinary
empty result `(0, 0, [])` (app.py lines 785-787 print a message and return).
No `SchemaError` exists in the implementation. -/
theorem claim3_counterexample :
    process_accounting_entries (some (default_names, [])) = Except.ok (0, 0, []) := rfl

/-- C3 amended: the pipeline never propagates an error for any decoded input
(including a failed read, a zero-row table, or a table none of whose columns
maps to 科目): every run returns `Except.ok`; the zero-row case yields the
empty result rather than a fatal `SchemaError`. -/
theorem claim3_amended (read : Option (List Str × List (List (Option Str)))) :
    ∃ out, process_accounting_entries read = Except.ok out := by
  unfold process_accounting_entries
  cases parse_pipeline read with
  | none => exact ⟨(0, 0, []), rfl⟩
  | some rows =>
      by_cases hl : rows.length = 0
      · simp [hl]
      · simp [hl]

/- ===================== Claim C4 ===================== -/

/-- C4 counterexample: with the cash leg on the *credit* side and an opposing
debit leg whose account `"1122 张三"` is exactly the shape rule 3 (whitespace
split) accepts, the credit-side extractor still falls through to the summary
fallback (here the placeholder 未知), while the mirrored debit-side unit does
extract 张三 via the whitespace rule — the chain is not the same on both
sides. -/
theorem claim4_counterexample :
    extract_counterparty_for_cash_credit
        [⟨some "库存现金".data, some [], 0, 500⟩,
         ⟨some "1122 张三".data, some [], 500, 0⟩] = "未知".data ∧
    spaceRule "1122 张三".data = some "张三".data ∧
    extract_counterparty_for_cash_debit
        [⟨some "库存现金".data, some [], 500, 0⟩,
         ⟨some "1122 张三".data, some [], 0, 500⟩] = "张三".data := by
  decide

lemma opposing_scan_debit_eq (entries : List Entry) :
    opposing_scan_debit entries =
      generic_opposing_scan (side_rules Side.debit) (fun e => e.credit) entries := by
  induction entries with
  | nil => rfl
  | cons e rest ih =>
      by_cases hc : isCashAccount (pyStrOf e.account)
      · simp [opposing_scan_debit, generic_opposing_scan, hc, ih]
      · by_cases ha : 0 < e.credit
        · cases h1 : sepRule '-' (pyStrOf e.account) with
          | some r =>
              simp [opposing_scan_debit, generic_opposing_scan, hc, ha, side_rules,
                ruleChain, h1]
          | none =>
              cases h2 : sepRule '/' (pyStrOf e.account) with
              | some r =>
                  simp [opposing_scan_debit, generic_opposing_scan, hc, ha, side_rules,
                    ruleChain, h1, h2]
              | none =>
                  cases h3 : spaceRule (pyStrOf e.account) with
                  | some r =>
                      simp [opposing_scan_debit, generic_opposing_scan, hc, ha, side_rules,
                        ruleChain, h1, h2, h3]
                  | none =>
                      simp [opposing_scan_debit, generic_opposing_scan, hc, ha, side_rules,
                        ruleChain, h1, h2, h3, ih]
        · simp [opposing_scan_debit, generic_opposing_scan, hc, ha, ih]

lemma opposing_scan_credit_eq (entries : List Entry) :
    opposing_scan_credit entries =
      generic_opposing_scan (side_rules Side.credit) (fun e => e.debit) entries := by
  induction entries with
  | nil => rfl
  | cons e rest ih =>
      by_cases hc : isCashAccount (pyStrOf e.account)
      · simp [opposing_scan_credit, generic_opposing_scan, hc, ih]
      · by_cases ha : 0 < e.debit
        · cases h1 : sepRule '-' (pyStrOf e.account) with
          | some r =>
              simp [opposing_scan_credit, generic_opposing_scan, hc, ha, side_rules,
                ruleChain, h1]
          | none =>
              cases h2 : sepRule '/' (pyStrOf e.account) with
              | some r =>
                  simp [opposing_scan_credit, generic_opposing_scan, hc, ha, side_rules,
                    ruleChain, h1, h2]
              | none =>
                  simp [opposing_scan_credit, generic_opposing_scan, hc, ha, side_rules,
                    ruleChain, h1, h2, ih]
        · simp [opposing_scan_credit, generic_opposing_scan, hc, ha, ih]

/-- C4 amended: both extractors apply the same dash-then-slash priority chain
to each opposing-side leg in original order, but the whitespace rule exists
*only* in the debit-side extractor: each side's extractor coincides with the
parametric chain extractor instantiated with rules
`[dash, slash, whitespace]` for a debit-side cash leg and just
`[dash, slash]` for a credit-side cash leg (then the summary fallback). -/
theorem claim4_amended (entries : List Entry) :
    extract_counterparty_for_cash_debit entries = generic_extract Side.debit entries ∧
    extract_counterparty_for_cash_credit entries = generic_extract Side.credit entries := by
  constructor
  · unfold extract_counterparty_for_cash_debit generic_extract
    rw [opposing_scan_debit_eq]
  · unfold extract_counterparty_for_cash_credit generic_extract
    rw [opposing_scan_credit_eq]

/- ===================== Claim C5 ===================== -/

/-- C5 counterexample: with an absent (empty) date string the resolver falls
back to `datetime.now()`, so two runs of the very same input at different
clock times resolve different business dates — the transform is not a
function of the input bytes alone. -/
theorem claim5_counterexample :
    get_business_date (some []) true ⟨2024, 1, 3⟩ ≠
      get_business_date (some []) true ⟨2024, 2, 7⟩ := by
  decide

/-- C5 amended: the resolver (and with it the pipeline) is deterministic in
the input exactly up to the current-date fallback: whenever the date string
is non-empty, non-blank and parses under one of the five fixed formats, the
resolved business day is independent of the clock; only absent or unparsable
dates make the output depend on the run time. -/
theorem claim5_amended (s : Str) (is_receipt : Bool) (now1 now2 : Date)
    (h1 : s ≠ []) (h2 : pyStrip s ≠ []) (h3 : (parseDate10 s).isSome) :
    get_business_date (some s) is_receipt now1 = get_business_date (some s) is_receipt now2 := by
  obtain ⟨d, hd⟩ := Option.isSome_iff_exists.mp h3
  have hc : s ≠ [] ∧ pyStrip s ≠ [] := ⟨h1, h2⟩
  simp only [get_business_date, base_of, if_pos hc, hd, Option.getD_some]

/-- C5 witness: a date string that parses gives clock-independent output. -/
theorem claim5_witness :
    get_business_date (some "2024-03-05".data) true ⟨2024, 1, 3⟩ =
      get_business_date (some "2024-03-05".data) true ⟨2025, 7, 9⟩ :=
  claim5_amended "2024-03-05".data true ⟨2024, 1, 3⟩ ⟨2025, 7, 9⟩
    (by decide) (by decide) (by decide)

/- ===================== Claim C6 ===================== -/

lemma mkValidDate_valid {t : Nat × Nat × Nat} {d : Date}
    (h : mkValidDate t = some d) : 1 ≤ d.m ∧ d.m ≤ 12 := by
  unfold mkValidDate at h
  split at h
  · rename_i hcond
    cases h
    exact ⟨hcond.2.1, hcond.2.2.1⟩
  · cases h

lemma parse_date_formats_valid :
    ∀ (os : List (Option (Nat × Nat × Nat))) (d : Date),
      parse_date_formats os = some d → 1 ≤ d.m ∧ d.m ≤ 12 := by
  intro os
  induction os with
  | nil => intro d h; cases h
  | cons o rest ih =>
      intro d h
      unfold parse_date_formats at h
      cases hb : o.bind mkValidDate with
      | some d' =>
          rw [hb] at h
          cases h
          obtain ⟨t, _, ht2⟩ := Option.bind_eq_some.mp hb
          exact mkValidDate_valid ht2
      | none =>
          rw [hb] at h
          exact ih d h

lemma parseDate10_valid {s : Str} {d : Date} (h : parseDate10 s = some d) :
    1 ≤ d.m ∧ d.m ≤ 12 :=
  parse_date_formats_valid _ d h

lemma base_of_valid (s : Option Str) (now : Date)
    (hnow : 1 ≤ now.m ∧ now.m ≤ 12) :
    1 ≤ (base_of s now).m ∧ (base_of s now).m ≤ 12 := by
  cases s with
  | none => exact hnow
  | some str =>
      by_cases hcond : str ≠ [] ∧ pyStrip str ≠ []
      · cases hp : parseDate10 str with
        | some d =>
            simp only [base_of, if_pos hcond, hp, Option.getD_some]
            exact parseDate10_valid hp
        | none =>
            simp only [base_of, if_pos hcond, hp, Option.getD_none]
            exact hnow
      · simp only [base_of, if_neg hcond]
        exact hnow

lemma monthLength_ge (y m : Nat) : 28 ≤ monthLength y m := by
  unfold monthLength
  split
  · split <;> norm_num
  · split <;> norm_num

lemma wd_lt (n : Nat) : wd n < 7 := Nat.mod_lt _ (by norm_num)

lemma wd_succ (n : Nat) : wd (n + 1) = (wd n + 1) % 7 := by
  unfold wd; omega

lemma skipWeekendF_closed (n : Nat) :
    skipWeekendF 7 n = if wd n = 5 then n + 2 else if wd n = 6 then n + 1 else n := by
  have h7 : wd n < 7 := wd_lt n
  by_cases h5 : wd n = 5
  · have h1 : wd (n + 1) = 6 := by rw [wd_succ, h5]
    have h2 : wd (n + 2) = 0 := by
      have he : n + 2 = (n + 1) + 1 := rfl
      rw [he, wd_succ, h1]
    simp [skipWeekendF, h5, h1, h2]
  · by_cases h6 : wd n = 6
    · have h1 : wd (n + 1) = 0 := by rw [wd_succ, h6]
      simp [skipWeekendF, h5, h6, h1]
    · have hle : ¬ 5 ≤ wd n := by omega
      simp [skipWeekendF, h5, h6, hle]

/-- The civil day count the resolver constructs before weekend rollover:
day 1 of the base month for receipts, day 15 for payment vouchers. -/
def business_base_day (s : Option Str) (is_receipt : Bool) (now : Date) : Nat :=
  daysFromCivil ⟨(base_of s now).y, (base_of s now).m, if is_receipt then 1 else 15⟩

/-- C6 confirmed: for any input string, document type and (month-valid)
current date, the resolver always produces a day: the base month is valid
(parsing validates, fallback inherits validity from `now`), the constructed
day 1 / 15 never needs the last-day clamp, and the weekend rollover advances
day by day to exactly the next weekday — zero days if the constructed day is
already a weekday, two days from the week's sixth day, one day from its
seventh, never further than necessary. -/
theorem claim6_resolver (s : Option Str) (is_receipt : Bool) (now : Date)
    (hnow : 1 ≤ now.m ∧ now.m ≤ 12) :
    (1 ≤ (base_of s now).m ∧ (base_of s now).m ≤ 12) ∧
    (if is_receipt then 1 else 15) ≤ monthLength (base_of s now).y (base_of s now).m ∧
    get_business_date s is_receipt now = skipWeekendF 7 (business_base_day s is_receipt now) ∧
    wd (get_business_date s is_receipt now) < 5 ∧
    business_base_day s is_receipt now ≤ get_business_date s is_receipt now ∧
    get_business_date s is_receipt now ≤ business_base_day s is_receipt now + 2 ∧
    (wd (business_base_day s is_receipt now) < 5 →
      get_business_date s is_receipt now = business_base_day s is_receipt now) ∧
    (wd (business_base_day s is_receipt now) = 5 →
      get_business_date s is_receipt now = business_base_day s is_receipt now + 2) ∧
    (wd (business_base_day s is_receipt now) = 6 →
      get_business_date s is_receipt now = business_base_day s is_receipt now + 1) := by
  have hv := base_of_valid s now hnow
  have hday : (if is_receipt then 1 else 15) ≤ monthLength (base_of s now).y (base_of s now).m := by
    have h28 := monthLength_ge (base_of s now).y (base_of s now).m
    split
    · omega
    · omega
  have hres0 : get_business_date s is_receipt now =
      skipWeekendF 7 (business_base_day s is_receipt now) := by
    simp only [get_business_date, business_base_day]
    rw [min_eq_left hday]
  have hres1 : get_business_date s is_receipt now =
      if wd (business_base_day s is_receipt now) = 5 then business_base_day s is_receipt now + 2
      else if wd (business_base_day s is_receipt now) = 6 then
        business_base_day s is_receipt now + 1
      else business_base_day s is_receipt now := by
    rw [hres0, skipWeekendF_closed]
  have h7 := wd_lt (business_base_day s is_receipt now)
  refine ⟨hv, hday, hres0, ?_, ?_, ?_, ?_, ?_, ?_⟩
  · rw [hres1]
    by_cases h5 : wd (business_base_day s is_receipt now) = 5
    · have h2 : wd (business_base_day s is_receipt now + 2) = 0 := by
        have he : business_base_day s is_receipt now + 2 =
            (business_base_day s is_receipt now + 1) + 1 := rfl
        rw [he, wd_succ, wd_succ, h5]
      rw [if_pos h5, h2]
      norm_num
    · by_cases h6 : wd (business_base_day s is_receipt now) = 6
      · have h1 : wd (business_base_day s is_receipt now + 1) = 0 := by rw [wd_succ, h6]
        rw [if_neg h5, if_pos h6, h1]
        norm_num
      · rw [if_neg h5, if_neg h6]
        omega
  · rw [hres1]; split_ifs
    all_goals omega
  · rw [hres1]; split_ifs
    all_goals omega
  · intro h; rw [hres1]; split_ifs
    all_goals omega
  · intro h; rw [hres1]; split_ifs
    all_goals omega
  · intro h; rw [hres1]; split_ifs
    all_goals omega

/-- C6 witness: 2024-06-01 falls on the week's sixth day (Saturday), and the
receipt date resolves to exactly two days later, 2024-06-03 (Monday). -/
theorem claim6_witness :
    wd (get_business_date (some "2024-06-01".data) true ⟨2024, 1, 3⟩) < 5 ∧
    get_business_date (some "2024-06-01".data) true ⟨2024, 1, 3⟩ =
      business_base_day (some "2024-06-01".data) true ⟨2024, 1, 3⟩ + 2 := by
  have h := claim6_resolver (some "2024-06-01".data) true ⟨2024, 1, 3⟩ (by decide)
  exact ⟨h.2.2.2.1, h.2.2.2.2.2.2.2.1 (by decide)⟩

/- ===================== Claim C7: supporting lemmas ===================== -/

lemma splitFirst_append :
    ∀ (pat s a b : Str), splitFirst pat s = some (a, b) → s = a ++ pat ++ b := by
  intro pat s
  induction s with
  | nil =>
      intro a b h
      simp only [splitFirst] at h
      by_cases hp : pat = ([] : Str)
      · rw [if_pos hp] at h
        cases h
        simp [hp]
      · rw [if_neg hp] at h
        cases h
  | cons c rest ih =>
      intro a b h
      rw [splitFirst] at h
      by_cases hp : pat.isPrefixOf (c :: rest)
      · rw [if_pos hp] at h
        obtain ⟨t, ht⟩ := List.isPrefixOf_iff_prefix.mp hp
        cases h
        simp [← ht]
  
      · rw [if_neg hp] at h
        cases hsp : splitFirst pat rest with
        | none => rw [hsp] at h; cases h
        | some ab =>
            obtain ⟨a', b'⟩ := ab
            rw [hsp] at h
            simp only [Option.some.injEq, Prod.mk.injEq] at h
            obtain ⟨ha, hb⟩ := h
            subst ha
            subst hb
            have h2 := ih a' b' hsp
            simp [h2]

lemma mem_replaceAllF (pat rep : Str) :
    ∀ (f : Nat) (s : Str) (c : Char), c ∈ replaceAllF pat rep f s → c ∈ s ∨ c ∈ rep := by
  intro f
  induction f with
  | zero => intro s c hc; exact Or.inl hc
  | succ f ih =>
      intro s c hc
      rw [replaceAllF] at hc
      cases hsp : splitFirst pat s with
      | none => rw [hsp] at hc; exact Or.inl hc
      | some ab =>
          obtain ⟨pre, post⟩ := ab
          rw [hsp] at hc
          have hs := splitFirst_append pat s pre post hsp
          rcases List.mem_append.mp hc with h1 | h2
          · rcases List.mem_append.mp h1 with h3 | h4
            · exact Or.inl (by rw [hs]; simp [h3])
            · exact Or.inr h4
          · rcases ih post c h2 with h5 | h6
            · exact Or.inl (by rw [hs]; simp [h5])
            · exact Or.inr h6

lemma mem_replaceAll (pat rep s : Str) (c : Char) (hc : c ∈ replaceAll pat rep s) :
    c ∈ s ∨ c ∈ rep :=
  mem_replaceAllF pat rep s.length s c hc

lemma mem_squeezeZerosF :
    ∀ (f : Nat) (s : Str) (c : Char), c ∈ squeezeZerosF f s → c ∈ s ∨ c = '零' := by
  intro f
  induction f with
  | zero => intro s c hc; exact Or.inl hc
  | succ f ih =>
      intro s c hc
      rw [squeezeZerosF] at hc
      by_cases hin : isSubstr "零零".data s
      · rw [if_pos hin] at hc
        rcases ih _ c hc with h1 | h2
        · rcases mem_replaceAll _ _ _ c h1 with h3 | h4
          · exact Or.inl h3
          · simp at h4
            exact Or.inr h4
        · exact Or.inr h2
      · rw [if_neg hin] at hc
        exact Or.inl hc

lemma mem_of_dropWhile {p : Char → Bool} :
    ∀ (l : Str) (c : Char), c ∈ l.dropWhile p → c ∈ l := by
  intro l
  induction l with
  | nil => intro c hc; simp [List.dropWhile] at hc
  | cons d rest ih =>
      intro c hc
      rw [List.dropWhile] at hc
      cases h : p d with
      | false =>
          simp only [h] at hc
          exact hc
      | true =>
          simp only [h] at hc
          exact List.mem_cons_of_mem d (ih c hc)

lemma mem_cleanup_amount (s : Str) (c : Char) (hc : c ∈ cleanup_amount s) :
    c ∈ s ∨ c ∈ "零万亿".data := by
  unfold cleanup_amount at hc
  have step5 : ∀ (t : Str), c ∈ (if ("零".data).isSuffixOf t
      then (t.reverse.dropWhile (· == '零')).reverse else t) → c ∈ t := by
    intro t h
    by_cases hsf : ("零".data).isSuffixOf t
    · rw [if_pos hsf] at h
      rw [List.mem_reverse] at h
      have := mem_of_dropWhile _ c h
      rwa [List.mem_reverse] at this
    · rwa [if_neg hsf] at h
  have h4 := step5 _ hc
  rcases mem_replaceAll _ _ _ c h4 with h5 | h5
  · rcases mem_replaceAll _ _ _ c h5 with h6 | h6
    · have h7 : c ∈ squeezeZerosF s.length s := by
        by_cases hpre : ("零元".data).isPrefixOf (squeezeZerosF s.length s)
        · rw [if_pos hpre] at h6
          exact List.mem_of_mem_drop h6
        · rwa [if_neg hpre] at h6
      rcases mem_squeezeZerosF _ _ c h7 with h8 | h8
      · exact Or.inl h8
      · subst h8; right; decide
    · simp at h6
      subst h6; right; decide
  · simp at h5
    subst h5; right; decide

def int_amount_chars : Str := "零壹贰叁肆伍陆柒捌玖拾佰仟万亿".data

lemma getD_mem_or_nil {α : Type} :
    ∀ (l : List (List α)) (i : Nat), l.getD i [] = [] ∨ l.getD i [] ∈ l := by
  intro l
  induction l with
  | nil => intro i; left; simp
  | cons x rest ih =>
      intro i
      cases i with
      | zero => right; simp
      | succ j =>
          rcases ih j with h | h
          · left; simpa using h
          · right; simp only [List.getD_cons_succ]
            exact List.mem_cons_of_mem x h

lemma chinese_digits_sub : ∀ s ∈ chinese_digits, ∀ c ∈ s, c ∈ int_amount_chars := by decide

lemma chinese_units_sub : ∀ s ∈ chinese_units, ∀ c ∈ s, c ∈ int_amount_chars := by decide

lemma chinese_big_units_sub : ∀ s ∈ chinese_big_units, ∀ c ∈ s, c ∈ int_amount_chars := by decide

lemma mem_renderDigits (gl : Nat) :
    ∀ (g : List Nat) (j : Nat) (z : Bool) (c : Char),
      c ∈ renderDigits gl j z g → c ∈ int_amount_chars := by
  intro g
  induction g with
  | nil => intro j z c hc; simp [renderDigits] at hc
  | cons d rest ih =>
      intro j z c hc
      rw [renderDigits] at hc
      by_cases hd : d ≠ 0
      · rw [if_pos hd] at hc
        rcases List.mem_append.mp hc with h1 | h2
        · rcases List.mem_append.mp h1 with h3 | h4
          · rcases List.mem_append.mp h3 with h5 | h6
            · by_cases hz : z = true
              · rw [if_pos hz] at h5
                simp at h5
                subst h5; decide
              · rw [if_neg hz] at h5
                simp at h5
            · by_cases hcond : ¬(d = 1 ∧ gl - j - 1 = 1 ∧ j = 0)
              · rw [if_pos hcond] at h6
                rcases getD_mem_or_nil chinese_digits d with hg | hg
                · rw [hg] at h6; simp at h6
                · exact chinese_digits_sub _ hg c h6
              · rw [if_neg hcond] at h6
                simp at h6
          · by_cases hpos : 0 < gl - j - 1
            · rw [if_pos hpos] at h4
              rcases getD_mem_or_nil chinese_units (gl - j - 1) with hg | hg
              · rw [hg] at h4; simp at h4
              · exact chinese_units_sub _ hg c h4
            · rw [if_neg hpos] at h4
              simp at h4
        · exact ih (j + 1) false c h2
      · rw [if_neg hd] at hc
        exact ih (j + 1) true c hc

lemma mem_renderGroupsF :
    ∀ (gs : List (List Nat)) (i total : Nat) (acc res : Str),
      renderGroupsF i total gs acc = some res →
      ∀ c ∈ res, c ∈ acc ∨ c ∈ int_amount_chars := by
  intro gs
  induction gs with
  | nil =>
      intro i total acc res h c hc
      rw [renderGroupsF] at h
      cases h
      exact Or.inl hc
  | cons g rest ih =>
      intro i total acc res h c hc
      rw [renderGroupsF] at h
      by_cases h1 : renderGroup g ≠ [] ∨ (i = total - 1 ∧ acc = [])
      · rw [if_pos h1] at h
        by_cases h2 : i < total - 1
        · rw [if_pos h2] at h
          by_cases h3 : total - i - 1 ≤ 2
          · rw [if_pos h3] at h
            rcases ih (i + 1) total _ res h c hc with h4 | h4
            · rcases List.mem_append.mp h4 with h5 | h6
              · rcases List.mem_append.mp h5 with h7 | h8
                · exact Or.inl h7
                · exact Or.inr (mem_renderDigits g.length g 0 false c h8)
              · rcases getD_mem_or_nil chinese_big_units (total - i - 1) with hg | hg
                · rw [hg] at h6; simp at h6
                · exact Or.inr (chinese_big_units_sub _ hg c h6)
            · exact Or.inr h4
          · rw [if_neg h3] at h
            cases h
        · rw [if_neg h2] at h
          rcases ih (i + 1) total _ res h c hc with h4 | h4
          · rcases List.mem_append.mp h4 with h5 | h6
            · exact Or.inl h5
            · exact Or.inr (mem_renderDigits g.length g 0 false c h6)
          · exact Or.inr h4
      · rw [if_neg h1] at h
        exact ih (i + 1) total acc res h c hc

lemma natDigitsAux_lt :
    ∀ (f n : Nat), ∀ d ∈ natDigitsAux f n, d < 10 := by
  intro f
  induction f with
  | zero => intro n d hd; simp [natDigitsAux] at hd
  | succ f ih =>
      intro n d hd
      rw [natDigitsAux] at hd
      by_cases h : n < 10
      · rw [if_pos h] at hd
        simp at hd
        omega
      · rw [if_neg h] at hd
        rcases List.mem_append.mp hd with h1 | h2
        · exact ih (n / 10) d h1
        · simp at h2
          subst h2
          exact Nat.mod_lt _ (by norm_num)

lemma digitChar_mem (d : Nat) (h : d < 10) : digitChar d ∈ "0123456789".data := by
  interval_cases d <;> decide

lemma mem_natToChars (n : Nat) (c : Char) (hc : c ∈ natToChars n) :
    c ∈ "0123456789".data := by
  unfold natToChars at hc
  obtain ⟨d, hd1, hd2⟩ := List.mem_map.mp hc
  subst hd2
  exact digitChar_mem d (natDigitsAux_lt (n + 1) n d hd1)

def py_error_chars : Str := "（金额转换错误: ）0123456789-/".data

lemma err_prefix_sub : ∀ c ∈ "（金额转换错误: ".data, c ∈ py_error_chars := by decide

lemma digit_chars_sub : ∀ c ∈ "0123456789".data, c ∈ py_error_chars := by decide

lemma mem_err_string (q : ℚ) (c : Char) (hc : c ∈ err_string q) :
    c ∈ py_error_chars := by
  unfold err_string at hc
  rcases List.mem_append.mp hc with h1 | h2
  · rcases List.mem_append.mp h1 with h3 | h4
    · exact err_prefix_sub c h3
    · unfold ratToChars at h4
      rcases List.mem_append.mp h4 with h5 | h6
      · unfold intToChars at h5
        by_cases hneg : q.num < 0
        · rw [if_pos hneg] at h5
          rcases List.mem_cons.mp h5 with h7 | h8
          · subst h7; decide
          · exact digit_chars_sub c (mem_natToChars _ c h8)
        · rw [if_neg hneg] at h5
          exact digit_chars_sub c (mem_natToChars _ c h5)
      · by_cases hden : q.den = 1
        · rw [if_pos hden] at h6
          simp at h6
        · rw [if_neg hden] at h6
          rcases List.mem_cons.mp h6 with h7 | h8
          · subst h7; decide
          · exact digit_chars_sub c (mem_natToChars _ c h8)
  · have h9 : c = '）' := by simpa using h2
    subst h9; decide

lemma rat_floor_natCast (n : ℕ) : ((n : ℚ)).floor = (n : ℤ) := by
  rw [Rat.floor_def']
  simp

lemma pyRound_zero : pyRound 0 = 0 := by
  have hf : (0 : ℚ).floor = 0 := by
    rw [Rat.floor_def']
    simp
  unfold pyRound
  rw [hf]
  norm_num

/-- Evaluation of `convert_nonneg` at a non-zero whole (natural-number)
amount: the fractional machinery contributes nothing and the result is the
cleaned-up integer rendering followed by 元整 (or the error string when the
rendering overflows the big-unit table). -/
lemma convert_nonneg_natCast (n : ℕ) (hn : n ≠ 0) :
    convert_nonneg (n : ℚ) =
      match renderGroupsF 0 (chunk4 (natDigits n)).length (chunk4 (natDigits n)) [] with
      | none => err_string (n : ℚ)
      | some ci1 =>
          cleanup_amount ((if ci1 = [] then "零".data else ci1) ++ "元整".data) := by
  have h0 : ((n : ℚ)) ≠ 0 := Nat.cast_ne_zero.mpr hn
  have hfl : ((n : ℚ)).floor.toNat = n := by
    rw [rat_floor_natCast]
    exact Int.toNat_natCast n
  have hdp : pyRound (((n : ℚ) - ((n : ℕ) : ℚ)) * 100) = 0 := by
    rw [sub_self, zero_mul, pyRound_zero]
  unfold convert_nonneg
  rw [if_neg h0]
  simp only [hfl, hdp, if_neg hn]
  cases hci : renderGroupsF 0 (chunk4 (natDigits n)).length (chunk4 (natDigits n)) [] with
  | none => simp
  | some ci1 => norm_num

def whole_amount_chars : Str :=
  "零壹贰叁肆伍陆柒捌玖拾佰仟万亿元整（金额转换错误: ）0123456789-/".data

lemma int_amount_sub : ∀ c ∈ int_amount_chars, c ∈ whole_amount_chars := by decide

lemma err_chars_sub : ∀ c ∈ py_error_chars, c ∈ whole_amount_chars := by decide

lemma zero_yuan_sub : ∀ c ∈ "零元整万亿".data, c ∈ whole_amount_chars := by decide

lemma convert_natCast_chars (n : ℕ) (hn : n ≠ 0) :
    ∀ c ∈ convert_nonneg (n : ℚ), c ∈ whole_amount_chars := by
  intro c hc
  rw [convert_nonneg_natCast n hn] at hc
  revert hc
  cases hci : renderGroupsF 0 (chunk4 (natDigits n)).length (chunk4 (natDigits n)) [] with
  | none =>
      intro hc
      exact err_chars_sub c (mem_err_string _ c hc)
  | some ci1 =>
      intro hc
      rcases mem_cleanup_amount _ c hc with h1 | h2
      · rcases List.mem_append.mp h1 with h3 | h4
        · by_cases hne : ci1 = []
          · rw [if_pos hne] at h3
            refine zero_yuan_sub c ?_
            simp at h3
            simp [h3]
          · rw [if_neg hne] at h3
            rcases mem_renderGroupsF _ 0 _ [] ci1 hci c h3 with h5 | h5
            · simp at h5
            · exact int_amount_sub c h5
        · refine zero_yuan_sub c ?_
          rcases List.mem_cons.mp h4 with h6 | h7
          · simp [h6]
          · simp at h7
            simp [h7]
      · refine zero_yuan_sub c ?_
        rcases List.mem_cons.mp h2 with h6 | h7
        · simp [h6]
        · rcases List.mem_cons.mp h7 with h8 | h9
          · simp [h8]
          · simp at h9
            simp [h9]

/- ===================== Claim C7 ===================== -/

/-- C7 confirmed: the localizer renders zero as the fixed string 零元整;
a positive whole (natural-number) amount never carries a 角 or 分 fractional
suffix (its characters stay within the integer-rendering alphabet, the
元整 tail, and — for amounts overflowing the big-unit table — the error
string, none of which contain 角 or 分); and a negative amount is exactly the
prefix 负 followed by the rendering of its absolute value. -/
theorem claim7_localizer :
    convert_to_chinese_amount 0 = "零元整".data ∧
    (∀ n : ℕ, 0 < n →
      '角' ∉ convert_to_chinese_amount (n : ℚ) ∧ '分' ∉ convert_to_chinese_amount (n : ℚ)) ∧
    (∀ x : ℚ, 0 < x →
      convert_to_chinese_amount (-x) = "负".data ++ convert_to_chinese_amount x) := by
  refine ⟨by decide, ?_, ?_⟩
  · intro n hn
    have hcast : ¬ ((n : ℚ)) < 0 := not_lt.mpr (Nat.cast_nonneg n)
    have hne : n ≠ 0 := by omega
    have hred : convert_to_chinese_amount (n : ℚ) = convert_nonneg (n : ℚ) := by
      unfold convert_to_chinese_amount
      rw [if_neg hcast]
    constructor
    · intro hmem
      rw [hred] at hmem
      have h := convert_natCast_chars n hne '角' hmem
      revert h; decide
    · intro hmem
      rw [hred] at hmem
      have h := convert_natCast_chars n hne '分' hmem
      revert h; decide
  · intro x hx
    have h1 : -x < 0 := neg_lt_zero.mpr hx
    have h2 : ¬ x < 0 := not_lt.mpr hx.le
    unfold convert_to_chinese_amount
    rw [if_pos h1, neg_neg, if_neg h2]

/-- C7 witness: instances of the two hypothesised parts at 25 and 7. -/
theorem claim7_witness :
    ('角' ∉ convert_to_chinese_amount ((25 : ℕ) : ℚ)) ∧
    convert_to_chinese_amount (-(7 : ℚ)) = "负".data ++ convert_to_chinese_amount 7 :=
  ⟨(claim7_localizer.2.1 25 (by decide)).1, claim7_localizer.2.2 7 (by decide)⟩

-- Whole-amount spot checks, now dischargeable through the cast lemma.
example : convert_to_chinese_amount ((1000 : ℕ) : ℚ) = "壹仟元整".data := by
  have hcast : ¬ (((1000 : ℕ) : ℚ)) < 0 := not_lt.mpr (Nat.cast_nonneg _)
  unfold convert_to_chinese_amount
  rw [if_neg hcast, convert_nonneg_natCast 1000 (by decide)]
  decide

example : convert_to_chinese_amount ((10001 : ℕ) : ℚ) = "壹万零壹元整".data := by
  have hcast : ¬ (((10001 : ℕ) : ℚ)) < 0 := not_lt.mpr (Nat.cast_nonneg _)
  unfold convert_to_chinese_amount
  rw [if_neg hcast, convert_nonneg_natCast 10001 (by decide)]
  decide

/- ===================== Claim C8 ===================== -/

/-- C8 counterexample: with headers `["voucher", "b"]` (fewer than six
columns), column 0 keyword-matches 凭证字号; unmatched column 1 is then also
assigned `default_names[1] = 凭证字号` by its own position — the filled slot
is *not* skipped — and in the rebuilt row the keyword-matched column's data
`"V1"` is overwritten by column 1's `"X"`. -/
theorem claim8_counterexample :
    matchHeader "voucher".data = some "凭证字号".data ∧
    matchHeader "b".data = none ∧
    columnMapping ["voucher".data, "b".data] = [(0, "凭证字号".data), (1, "凭证字号".data)] ∧
    alookup (buildRowCells (reconcileMapping ["voucher".data, "b".data])
        [some "V1".data, some "X".data]) "凭证字号".data = some (some "X".data) := by
  decide

lemma buildRow_foldl (cells : List (Option Str)) (name : Str) :
    ∀ (mapping : List (Nat × Str)) (acc : List (Str × Option Str)),
      alookup (mapping.foldl
          (fun acc p => if p.1 < cells.length then upsert acc p.2 (cells.getD p.1 none) else acc)
          acc) name =
        match (mapping.filter
            (fun p => decide (p.2 = name) && decide (p.1 < cells.length))).getLast? with
        | some p => some (cells.getD p.1 none)
        | none => alookup acc name := by
  intro mapping
  induction mapping with
  | nil => intro acc; simp
  | cons p m ih =>
      intro acc
      rw [List.foldl_cons, ih, List.filter_cons]
      by_cases hq : (decide (p.2 = name) && decide (p.1 < cells.length)) = true
      · rw [if_pos hq]
        simp only [Bool.and_eq_true, decide_eq_true_eq] at hq
        cases hfm : m.filter
            (fun p => decide (p.2 = name) && decide (p.1 < cells.length)) with
        | nil =>
            simp only [List.getLast?_nil, List.getLast?_singleton]
            rw [if_pos hq.2, alookup_upsert, if_pos hq.1]
        | cons q qs =>
            rw [List.getLast?_cons_cons]
            have hx : (q :: qs).getLast? = some ((q :: qs).getLast (by simp)) :=
              List.getLast?_eq_getLast _ _
            rw [hx]
      · rw [if_neg hq]
        cases hfm : m.filter
            (fun p => decide (p.2 = name) && decide (p.1 < cells.length)) with
        | nil =>
            simp only [List.getLast?_nil]
            by_cases hlen : p.1 < cells.length
            · have hname : ¬ p.2 = name := by
                intro hcontra
                exact hq (by simp [hcontra, hlen])
              rw [if_pos hlen, alookup_upsert, if_neg hname]
            · rw [if_neg hlen]
        | cons q qs =>
            have hx : (q :: qs).getLast? = some ((q :: qs).getLast (by simp)) :=
              List.getLast?_eq_getLast _ _
            rw [hx]

/-- C8 amended: in the fewer-than-six-columns branch, an unmatched column at
index `i` is assigned the canonical name at position `i` with *no* skipping
of already-filled slots; consequently several columns can map to one field,
and the rebuilt row holds the data of the **last** column assigned to that
field (earlier keyword-matched data is overwritten). -/
theorem claim8_amended (headers : List Str) (cells : List (Option Str)) (name : Str)
    (_hlt : headers.length < 6) :
    alookup (buildRowCells (reconcileMapping headers) cells) name =
      match ((reconcileMapping headers).filter
          (fun p => decide (p.2 = name) && decide (p.1 < cells.length))).getLast? with
      | some p => some (cells.getD p.1 none)
      | none => none := by
  unfold buildRowCells
  rw [buildRow_foldl]
  cases ((reconcileMapping headers).filter
      (fun p => decide (p.2 = name) && decide (p.1 < cells.length))).getLast? with
  | none => rfl
  | some q => rfl

/-- C8 witness: the amended rule evaluated on the two-column counterexample
table. -/
theorem claim8_witness :
    alookup (buildRowCells (reconcileMapping ["voucher".data, "b".data])
        [some "V1".data, some "X".data]) "凭证字号".data = some (some "X".data) := by
  rw [claim8_amended ["voucher".data, "b".data] [some "V1".data, some "X".data]
    "凭证字号".data (by decide)]
  decide

/- ===================== Claim C9 ===================== -/

/-- C9 counterexample: for the account `"2241-张3三"`, rule 1 yields 张三 —
the digit *interior* to the candidate name is deleted by
`re.sub(r'\d+\s*', '', ...)`, not preserved as the claim states. -/
theorem claim9_counterexample :
    sepRule '-' "2241-张3三".data = some "张三".data ∧
    '3' ∈ pyStrip ((splitOnChar '-' "2241-张3三".data).getLastD []) ∧
    '3' ∉ "张三".data := by
  decide

lemma stripDigitRunsF_no_digit :
    ∀ (f : Nat) (l : Str), ∀ c ∈ stripDigitRunsF f l, pyIsDigit c = false := by
  intro f
  induction f with
  | zero => intro l c hc; simp [stripDigitRunsF] at hc
  | succ f ih =>
      intro l c hc
      match l with
      | [] => simp [stripDigitRunsF] at hc
      | d :: rest =>
          rw [stripDigitRunsF] at hc
          by_cases h : pyIsDigit d
          · rw [if_pos h] at hc
            exact ih _ c hc
          · rw [if_neg h] at hc
            rcases List.mem_cons.mp hc with h1 | h2
            · subst h1
              exact Bool.not_eq_true _ ▸ (by simpa using h)
            · exact ih _ c h2

/-- C9 amended: when rule 1 (or the '/' variant) accepts, the accepted text is
non-empty, at most 10 characters, and contains **no** digit at all — every
digit run in the last segment (with trailing whitespace), interior digits
included, has been removed; acceptance is exactly non-emptiness plus the
10-character bound. -/
theorem claim9_amended (sep : Char) (s r : Str) (h : sepRule sep s = some r) :
    r ≠ [] ∧ r.length ≤ 10 ∧ ∀ c ∈ r, pyIsDigit c = false := by
  unfold sepRule at h
  by_cases h1 : isSubstr [sep] s
  · rw [if_pos h1] at h
    by_cases h2 : 1 < (splitOnChar sep s).length
    · rw [if_pos h2] at h
      by_cases h3 : stripDigitRuns (pyStrip ((splitOnChar sep s).getLastD [])) ≠ [] ∧
          (stripDigitRuns (pyStrip ((splitOnChar sep s).getLastD []))).length ≤ 10
      · rw [if_pos h3] at h
        cases h
        refine ⟨h3.1, h3.2, ?_⟩
        intro c hc
        exact stripDigitRunsF_no_digit _ _ c hc
      · rw [if_neg h3] at h
        cases h
    · rw [if_neg h2] at h
      cases h
  · rw [if_neg h1] at h
    cases h

/-- C9 witness: the amended properties at the counterexample account. -/
theorem claim9_witness :
    ("张三".data ≠ [] ∧ ("张三".data).length ≤ 10) ∧ pyIsDigit '张' = false := by
  have h := claim9_amended '-' "2241-张3三".data "张三".data (by decide)
  exact ⟨⟨h.1, h.2.1⟩, h.2.2 '张' (by decide)⟩

/- ===================== Claim C10 ===================== -/

lemma classify_none_of_no_positive :
    ∀ (entries : List Entry),
      (∀ e ∈ entries, isCashAccount (pyStrOf e.account) = true →
        ¬ 0 < e.debit ∧ ¬ 0 < e.credit) →
      classify_cash_leg entries = none := by
  intro entries
  induction entries with
  | nil => intro _; rfl
  | cons e rest ih =>
      intro h
      rw [classify_cash_leg]
      by_cases hc : isCashAccount (pyStrOf e.account)
      · have he := h e (by simp) hc
        rw [if_pos hc, if_neg he.1, if_neg he.2]
        exact ih (fun x hx => h x (List.mem_cons_of_mem e hx))
      · rw [if_neg hc]
        exact ih (fun x hx => h x (List.mem_cons_of_mem e hx))

/-- C10 confirmed: a voucher unit that does contain a cash-account leg but in
which no cash-account leg has a positive debit or credit (as happens when the
only cash leg carries a negative amount, which the `!= 0` row filter keeps)
never breaks out of the classification loop, so the unit is skipped silently:
no `VoucherRecord` is produced and no document is generated. -/
theorem claim10_silent_skip (g : VoucherUnit)
    (_hcash : has_cash g.entries = true)
    (h : ∀ e ∈ g.entries, isCashAccount (pyStrOf e.account) = true →
      ¬ 0 < e.debit ∧ ¬ 0 < e.credit) :
    process_group g = none := by
  unfold process_group
  rw [classify_none_of_no_positive g.entries h]

/-- C10 witness: a unit whose single leg is a cash account with debit −5
(a row the `!= 0` amount filter keeps, first conjunct) produces no record. -/
theorem claim10_witness :
    ((GRow.mk [("科目".data, some "1001 库存现金".data)] (some (-5 : ℚ)) (some 0)).debit.getD 0 ≠ 0 ∨
      (GRow.mk [("科目".data, some "1001 库存现金".data)] (some (-5 : ℚ)) (some 0)).credit.getD 0 ≠ 0) ∧
    process_group ⟨"2024-01-05".data, "记-7".data, some [],
      [⟨some "1001 库存现金".data, some "提现".data, -5, 0⟩]⟩ = none := by
  constructor
  · left; decide
  · exact claim10_silent_skip _ (by decide) (by decide)
